import Mathlib

/-!
Verification development for the audio-callback adaptation layer of the
min-api repository (file `src/include/c74_min_operator_sample.h`).

The layer adapts a block-oriented, channel-major audio callback
(`perform(self, dsp64, in_chans, numins, out_chans, numouts, sampleframes, flags, userparam)`)
to a per-sample `calculate()` member function of a user compute unit whose
channel arity is declared at compile time by `sample_operator<input_count, output_count>`.

Shallow-embedding conventions:

* A C++ `sample` is a `double`.  The dispatch layer never computes on sample
  values — it only copies them between buffers, bundle slots and the compute
  function — so its behaviour is uniform in the scalar domain.  We model the
  domain by `ℤ`, which gives exact, decidable value equality for the concrete
  compute functions used in witnesses.
* The input and output channel buffers (`double** in_chans`, `double** out_chans`)
  are modelled as one store indexed by a side (input or output), a channel
  index and a frame index.  The C++ code receives two distinct pointer arrays;
  the two-sided store expresses the standard non-aliasing assumption.
  Writes in the source go only through `out_chans`, which in the model is a
  pointwise update of the `side.out` part of the store.
* The user object `self->obj` may be stateful: its `calculate` member is
  modelled as a state-threading function `σ → inputs → result × σ`.
* To settle temporal claims (ordering of reads, compute calls and writes) the
  embedding additionally records an event trace: each buffer read, each
  invocation of `calculate` (tagged with the loop index and the argument list
  in positional order) and each buffer write appends an event, in the order
  in which the corresponding operation occurs in the source text.
* `sampleframes` is a C `long`; it is modelled as `Int`.  The source loop
  `for (auto i = 0; i < sampleframes; ++i)` runs its body for the frame
  indices `0, 1, …, sampleframes-1` (and not at all when `sampleframes ≤ 0`),
  which is exactly iteration over `List.range sampleframes.toNat`.
* C++ `size_t` values are modelled as `Nat` together with the reduction
  modulo `2^64` that the `int → size_t` conversion performs.
-/

namespace C74Min

/-- A single audio sample (C++ `sample` = `double`; see the header comment for
why the scalar domain is modelled by `ℤ`). -/
abbrev sample := ℤ

/-- Which of the two buffer families a store cell belongs to: the input
channels (`in_chans`) or the output channels (`out_chans`). -/
inductive side
  | inp
  | out
deriving DecidableEq

/-- The state of all channel buffers: a sample for each (side, channel index,
frame index) triple.  Externally owned; `perform` receives it and returns the
updated store. -/
abbrev store := side → Nat → Nat → sample

/-- Writing one sample through `out_chans[chan][idx] = v`.  Only the output
side is ever written by the source. -/
def storeWrite (st : store) (chan idx : Nat) (v : sample) : store :=
  fun s c i => if s = side.out ∧ c = chan ∧ i = idx then v else st s c i

/-- One observable action of a `perform` call, for the temporal claims:
a read of `in_chans[chan][idx]`, an invocation of `self->obj.calculate`
(tagged with the frame-loop index and the scalar arguments in positional
order), or a write of `out_chans[chan][idx]`. -/
inductive Event
  | readIn (chan idx : Nat)
  | call (idx : Nat) (args : List sample)
  | writeOut (chan idx : Nat)
deriving DecidableEq

/-- The per-frame body of the specialised `min_performer<T, sample_operator<1,1>>::perform`:

    auto in = in_samps[i];
    auto out = self->obj.calculate(in);
    out_samps[i] = out;

with `in_samps = in_chans[0]` and `out_samps = out_chans[0]`. -/
def perform_1_1_step {σ : Type} (calculate : σ → sample → sample × σ)
    (acc : store × σ × List Event) (i : Nat) : store × σ × List Event :=
  let inv := acc.1 side.inp 0 i
  let r := calculate acc.2.1 inv
  (storeWrite acc.1 0 i r.1, r.2,
    acc.2.2 ++ [Event.readIn 0 i, Event.call i [inv], Event.writeOut 0 i])

/-- The frame loop of the specialised `perform` over frame indices
`0, 1, …, m-1`. -/
def perform_1_1_frames {σ : Type} (calculate : σ → sample → sample × σ)
    (st : store) (m : Nat) (s0 : σ) : store × σ × List Event :=
  (List.range m).foldl (perform_1_1_step calculate) (st, s0, [])

/-- `min_performer<T, sample_operator<1,1>>::perform`: the specialised
single-input / single-output dispatch path.  Runs the per-frame body for
`i = 0, 1, …, sampleframes-1` (no iterations when `sampleframes ≤ 0`). -/
def perform_1_1 {σ : Type} (calculate : σ → sample → sample × σ)
    (st : store) (sampleframes : Int) (s0 : σ) : store × σ × List Event :=
  perform_1_1_frames calculate st sampleframes.toNat s0

/-- `callable_samples::set`: `data[index] = value`.  The bundle
`samples<count>` (a `std::array<sample, count>`) is modelled as a function
from slot index to sample. -/
def bundle_set (data : Nat → sample) (index : Nat) (value : sample) : Nat → sample :=
  fun j => if j = index then value else data j

/-- One iteration of the input-gather loop of the generic `perform`:
`ins.set(chan, in_chans[chan][i])`, which reads `in_chans[chan][i]`. -/
def gather_step (st : store) (i : Nat) (acc : (Nat → sample) × List Event)
    (chan : Nat) : (Nat → sample) × List Event :=
  (bundle_set acc.1 chan (st side.inp chan i), acc.2 ++ [Event.readIn chan i])

/-- The input-gather loop of the generic `perform`:

    callable_samples<T, T::inputcount()> ins(self);
    for (auto chan = 0; chan < self->obj.inputcount(); ++chan)
        ins.set(chan, in_chans[chan][i]);

A freshly constructed bundle holds unspecified `std::array` contents; every
slot in `[0, inputcount)` is assigned before use, so the model initialises
the bundle with zeros without loss. -/
def gather (inputcount : Nat) (st : store) (i : Nat) : (Nat → sample) × List Event :=
  (List.range inputcount).foldl (gather_step st i) (fun _ => 0, [])

/-- The argument-expansion mechanism (`detail::gen_seq` / `callable_samples::call`):
`self->obj.calculate(data[Is]...)` with `Is = 0, 1, …, count-1`, i.e. the
bundle slots are passed as separate positional arguments in ascending slot
order.  The positional argument tuple is modelled as a `List sample`. -/
def expand (count : Nat) (data : Nat → sample) : List sample :=
  (List.range count).map data

/-- The sequence overload of `perform_copy_output`:

    for (auto chan = 0; chan < self->obj.outputcount(); ++chan)
        out_chans[chan][index] = vals[chan];

The returned `samples<outputcount>` value is modelled as a function from
output slot to sample. -/
def perform_copy_output_seq (outputcount : Nat) (st : store) (idx : Nat)
    (vals : Nat → sample) : store × List Event :=
  (List.range outputcount).foldl
    (fun acc chan => (storeWrite acc.1 chan idx (vals chan), acc.2 ++ [Event.writeOut chan idx]))
    (st, [])

/-- The scalar overload of `perform_copy_output`: `out_chans[0][index] = val;`. -/
def perform_copy_output_scalar (st : store) (idx : Nat) (val : sample) :
    store × List Event :=
  (storeWrite st 0 idx val, [Event.writeOut 0 idx])

/-- The per-frame body of the generic `min_performer<T, generic>::perform`
for a compute unit whose `calculate` returns a `samples<M>` sequence
(declared output count `M > 1`): gather the `K` input samples into a fresh
bundle, expand the bundle into positional arguments, call `calculate`, and
scatter the returned sequence with the sequence overload of
`perform_copy_output`. -/
def perform_generic_seq_step {σ : Type} (K M : Nat)
    (calculate : σ → List sample → (Nat → sample) × σ)
    (acc : store × σ × List Event) (i : Nat) : store × σ × List Event :=
  let g := gather K acc.1 i
  let args := expand K g.1
  let r := calculate acc.2.1 args
  let w := perform_copy_output_seq M acc.1 i r.1
  (w.1, r.2, acc.2.2 ++ g.2 ++ [Event.call i args] ++ w.2)

/-- The frame loop of the generic sequence-returning `perform` over frame
indices `0, 1, …, m-1`. -/
def perform_generic_seq_frames {σ : Type} (K M : Nat)
    (calculate : σ → List sample → (Nat → sample) × σ)
    (st : store) (m : Nat) (s0 : σ) : store × σ × List Event :=
  (List.range m).foldl (perform_generic_seq_step K M calculate) (st, s0, [])

/-- The generic `min_performer<T, generic>::perform`, sequence-returning
case: the per-frame body over `i = 0, 1, …, sampleframes-1`. -/
def perform_generic_seq {σ : Type} (K M : Nat)
    (calculate : σ → List sample → (Nat → sample) × σ)
    (st : store) (sampleframes : Int) (s0 : σ) : store × σ × List Event :=
  perform_generic_seq_frames K M calculate st sampleframes.toNat s0

/-- The per-frame body of the generic `min_performer<T, generic>::perform`
for a compute unit whose `calculate` returns a bare `sample` (declared output
count 1): the scalar overload of `perform_copy_output` writes the single
result to `out_chans[0][i]`. -/
def perform_generic_scalar_step {σ : Type} (K : Nat)
    (calculate : σ → List sample → sample × σ)
    (acc : store × σ × List Event) (i : Nat) : store × σ × List Event :=
  let g := gather K acc.1 i
  let args := expand K g.1
  let r := calculate acc.2.1 args
  let w := perform_copy_output_scalar acc.1 i r.1
  (w.1, r.2, acc.2.2 ++ g.2 ++ [Event.call i args] ++ w.2)

/-- The frame loop of the generic scalar-returning `perform` over frame
indices `0, 1, …, m-1`. -/
def perform_generic_scalar_frames {σ : Type} (K : Nat)
    (calculate : σ → List sample → sample × σ)
    (st : store) (m : Nat) (s0 : σ) : store × σ × List Event :=
  (List.range m).foldl (perform_generic_scalar_step K calculate) (st, s0, [])

/-- The generic `min_performer<T, generic>::perform`, scalar-returning case:
the per-frame body over `i = 0, 1, …, sampleframes-1`. -/
def perform_generic_scalar {σ : Type} (K : Nat)
    (calculate : σ → List sample → sample × σ)
    (st : store) (sampleframes : Int) (s0 : σ) : store × σ × List Event :=
  perform_generic_scalar_frames K calculate st sampleframes.toNat s0

/-- A stateless (deterministic, pure) 1-input compute unit built from a plain
function, for the functional-correctness claims. -/
def pureCalc1 (f : sample → sample) : Unit → sample → sample × Unit :=
  fun _ x => (f x, ())

/-- A stateless K-input, scalar-output compute unit built from a plain
function on the positional argument list. -/
def pureCalcScalar (f : List sample → sample) : Unit → List sample → sample × Unit :=
  fun _ xs => (f xs, ())

/-- A stateless K-input, sequence-output compute unit built from a plain
function on the positional argument list. -/
def pureCalcSeq (f : List sample → (Nat → sample)) :
    Unit → List sample → (Nat → sample) × Unit :=
  fun _ xs => (f xs, ())

/-- The list of arguments the generic dispatcher hands to `calculate` at
frame `i`: the samples of input channels `0, 1, …, K-1` at frame `i`, in
ascending channel order. -/
def argsAt (K : Nat) (st : store) (i : Nat) : List sample :=
  (List.range K).map fun c => st side.inp c i

/-- The conversion a C++ `int` template argument undergoes when stored in a
`static constexpr size_t` member: reduction modulo `2^64` (64-bit `size_t`). -/
def size_t_of_int (x : Int) : Nat :=
  (x % (2 : Int) ^ 64).toNat

/-- `sample_operator<input_count, output_count>::inputcount()`:
`static constexpr size_t m_inputcount = input_count;` returned unchanged. -/
def sample_operator_inputcount (input_count output_count : Int) : Nat :=
  size_t_of_int input_count

/-- `sample_operator<input_count, output_count>::outputcount()`:
`static constexpr size_t m_outputcount = output_count;` returned unchanged. -/
def sample_operator_outputcount (input_count output_count : Int) : Nat :=
  size_t_of_int output_count

/-- A concrete block of input samples for witnesses: input channel 0 holds
`[1, 2, 3]`, input channel 1 holds `[10, 20, 30]`, everything else (further
input channels beyond frame 2, and all output cells) is `0`. -/
def demoStore : store := fun sd c i =>
  if sd = side.inp then
    if c = 0 then if i = 0 then 1 else if i = 1 then 2 else if i = 2 then 3 else 0
    else if c = 1 then if i = 0 then 10 else if i = 1 then 20 else if i = 2 then 30 else 0
    else 0
  else 0

/-- An event touches only channel 0: it is a read of `in_chans[0]`, a write
of `out_chans[0]`, or a compute invocation (which touches no buffer). -/
def eventChan0 : Event → Prop
  | Event.readIn c _ => c = 0
  | Event.call _ _ => True
  | Event.writeOut c _ => c = 0

/-! Basic lemmas about the loop combinator and the per-frame pieces. -/

lemma range_foldl_succ {α : Type _} (f : α → Nat → α) (a : α) (n : Nat) :
    (List.range (n + 1)).foldl f a = f ((List.range n).foldl f a) n := by
  rw [List.range_succ, List.foldl_append, List.foldl_cons, List.foldl_nil]

lemma gather_data (K : Nat) (st : store) (i : Nat) (j : Nat) :
    (gather K st i).1 j = if j < K then st side.inp j i else 0 := by
  induction K with
  | zero => simp [gather]
  | succ K ih =>
    unfold gather at ih ⊢
    rw [range_foldl_succ]
    simp only [gather_step, bundle_set]
    by_cases hj : j = K
    · subst hj
      simp
    · simp only [if_neg hj]
      rw [ih]
      by_cases h2 : j < K
      · rw [if_pos h2, if_pos (by omega)]
      · rw [if_neg h2, if_neg (by omega)]

lemma gather_trace (K : Nat) (st : store) (i : Nat) :
    (gather K st i).2 = (List.range K).map fun c => Event.readIn c i := by
  induction K with
  | zero => simp [gather]
  | succ K ih =>
    unfold gather at ih ⊢
    rw [range_foldl_succ, List.range_succ]
    simp [gather_step, ih]

lemma expand_gather (K : Nat) (st : store) (i : Nat) :
    expand K (gather K st i).1 = argsAt K st i := by
  unfold expand argsAt
  apply List.map_congr_left
  intro a ha
  rw [gather_data, if_pos (List.mem_range.mp ha)]

lemma argsAt_congr (K : Nat) (st1 st2 : store) (i : Nat)
    (h : ∀ c, c < K → st1 side.inp c i = st2 side.inp c i) :
    argsAt K st1 i = argsAt K st2 i := by
  unfold argsAt
  apply List.map_congr_left
  intro a ha
  exact h a (List.mem_range.mp ha)

lemma copy_seq_store (M : Nat) (st : store) (idx : Nat) (vals : Nat → sample)
    (sd : side) (c i : Nat) :
    (perform_copy_output_seq M st idx vals).1 sd c i
      = if sd = side.out ∧ c < M ∧ i = idx then vals c else st sd c i := by
  induction M with
  | zero => simp [perform_copy_output_seq]
  | succ M ih =>
    unfold perform_copy_output_seq at ih ⊢
    rw [range_foldl_succ]
    simp only [storeWrite]
    rw [ih]
    by_cases hs : sd = side.out
    · by_cases hi2 : i = idx
      · by_cases hc : c = M
        · rw [if_pos ⟨hs, hc, hi2⟩, if_pos ⟨hs, by omega, hi2⟩, hc]
        · rw [if_neg (by tauto)]
          by_cases h2 : c < M
          · rw [if_pos ⟨hs, h2, hi2⟩, if_pos ⟨hs, by omega, hi2⟩]
          · rw [if_neg (by tauto), if_neg (by push_neg; intro _ h3; omega)]
      · rw [if_neg (by tauto), if_neg (by tauto), if_neg (by tauto)]
    · rw [if_neg (by tauto), if_neg (by tauto), if_neg (by tauto)]

lemma copy_seq_trace (M : Nat) (st : store) (idx : Nat) (vals : Nat → sample) :
    (perform_copy_output_seq M st idx vals).2
      = (List.range M).map fun c => Event.writeOut c idx := by
  induction M with
  | zero => simp [perform_copy_output_seq]
  | succ M ih =>
    unfold perform_copy_output_seq at ih ⊢
    rw [range_foldl_succ, List.range_succ]
    simp [ih]

lemma storeWrite_other (st : store) (chan idx : Nat) (v : sample)
    (sd : side) (c i : Nat) (h : ¬(sd = side.out ∧ c = chan ∧ i = idx)) :
    storeWrite st chan idx v sd c i = st sd c i := by
  unfold storeWrite
  rw [if_neg h]

lemma perform_1_1_step_fst {σ : Type} (calculate : σ → sample → sample × σ)
    (acc : store × σ × List Event) (i : Nat) :
    (perform_1_1_step calculate acc i).1
      = storeWrite acc.1 0 i (calculate acc.2.1 (acc.1 side.inp 0 i)).1 := rfl

lemma perform_1_1_step_trace {σ : Type} (calculate : σ → sample → sample × σ)
    (acc : store × σ × List Event) (i : Nat) :
    (perform_1_1_step calculate acc i).2.2
      = acc.2.2 ++ [Event.readIn 0 i, Event.call i [acc.1 side.inp 0 i], Event.writeOut 0 i] := rfl

lemma perform_generic_scalar_step_fst {σ : Type} (K : Nat)
    (calculate : σ → List sample → sample × σ) (acc : store × σ × List Event) (i : Nat) :
    (perform_generic_scalar_step K calculate acc i).1
      = storeWrite acc.1 0 i (calculate acc.2.1 (expand K (gather K acc.1 i).1)).1 := rfl

lemma perform_generic_scalar_step_trace {σ : Type} (K : Nat)
    (calculate : σ → List sample → sample × σ) (acc : store × σ × List Event) (i : Nat) :
    (perform_generic_scalar_step K calculate acc i).2.2
      = acc.2.2 ++ (gather K acc.1 i).2
          ++ [Event.call i (expand K (gather K acc.1 i).1)] ++ [Event.writeOut 0 i] := rfl

lemma perform_generic_seq_step_fst {σ : Type} (K M : Nat)
    (calculate : σ → List sample → (Nat → sample) × σ) (acc : store × σ × List Event) (i : Nat) :
    (perform_generic_seq_step K M calculate acc i).1
      = (perform_copy_output_seq M acc.1 i
          (calculate acc.2.1 (expand K (gather K acc.1 i).1)).1).1 := rfl

lemma perform_generic_seq_step_trace {σ : Type} (K M : Nat)
    (calculate : σ → List sample → (Nat → sample) × σ) (acc : store × σ × List Event) (i : Nat) :
    (perform_generic_seq_step K M calculate acc i).2.2
      = acc.2.2 ++ (gather K acc.1 i).2
          ++ [Event.call i (expand K (gather K acc.1 i).1)]
          ++ (perform_copy_output_seq M acc.1 i
              (calculate acc.2.1 (expand K (gather K acc.1 i).1)).1).2 := rfl

lemma frames_1_1_succ {σ : Type} (calculate : σ → sample → sample × σ)
    (st : store) (m : Nat) (s0 : σ) :
    perform_1_1_frames calculate st (m + 1) s0
      = perform_1_1_step calculate (perform_1_1_frames calculate st m s0) m := by
  unfold perform_1_1_frames
  rw [range_foldl_succ]

lemma frames_scalar_succ {σ : Type} (K : Nat) (calculate : σ → List sample → sample × σ)
    (st : store) (m : Nat) (s0 : σ) :
    perform_generic_scalar_frames K calculate st (m + 1) s0
      = perform_generic_scalar_step K calculate
          (perform_generic_scalar_frames K calculate st m s0) m := by
  unfold perform_generic_scalar_frames
  rw [range_foldl_succ]

lemma frames_seq_succ {σ : Type} (K M : Nat)
    (calculate : σ → List sample → (Nat → sample) × σ) (st : store) (m : Nat) (s0 : σ) :
    perform_generic_seq_frames K M calculate st (m + 1) s0
      = perform_generic_seq_step K M calculate
          (perform_generic_seq_frames K M calculate st m s0) m := by
  unfold perform_generic_seq_frames
  rw [range_foldl_succ]

/-! Store preservation: each dispatch path writes only output-channel cells
with frame index below the frame count (channel 0 for the two scalar-writing
paths, channels below the declared output count for the sequence path).
These lemmas hold for arbitrary, possibly stateful compute units. -/

lemma frames_1_1_preserve {σ : Type} (calculate : σ → sample → sample × σ)
    (st : store) (m : Nat) (s0 : σ) :
    ∀ sd c i, ¬(sd = side.out ∧ c = 0 ∧ i < m) →
      (perform_1_1_frames calculate st m s0).1 sd c i = st sd c i := by
  induction m with
  | zero => intro sd c i _; rfl
  | succ m ih =>
    intro sd c i h
    rw [frames_1_1_succ, perform_1_1_step_fst]
    rw [storeWrite_other]
    · exact ih sd c i (fun hh => h ⟨hh.1, hh.2.1, by omega⟩)
    · exact fun hh => h ⟨hh.1, hh.2.1, by omega⟩

lemma frames_scalar_preserve {σ : Type} (K : Nat)
    (calculate : σ → List sample → sample × σ) (st : store) (m : Nat) (s0 : σ) :
    ∀ sd c i, ¬(sd = side.out ∧ c = 0 ∧ i < m) →
      (perform_generic_scalar_frames K calculate st m s0).1 sd c i = st sd c i := by
  induction m with
  | zero => intro sd c i _; rfl
  | succ m ih =>
    intro sd c i h
    rw [frames_scalar_succ, perform_generic_scalar_step_fst]
    rw [storeWrite_other]
    · exact ih sd c i (fun hh => h ⟨hh.1, hh.2.1, by omega⟩)
    · exact fun hh => h ⟨hh.1, hh.2.1, by omega⟩

lemma frames_seq_preserve {σ : Type} (K M : Nat)
    (calculate : σ → List sample → (Nat → sample) × σ) (st : store) (m : Nat) (s0 : σ) :
    ∀ sd c i, ¬(sd = side.out ∧ c < M ∧ i < m) →
      (perform_generic_seq_frames K M calculate st m s0).1 sd c i = st sd c i := by
  induction m with
  | zero => intro sd c i _; rfl
  | succ m ih =>
    intro sd c i h
    rw [frames_seq_succ, perform_generic_seq_step_fst, copy_seq_store]
    rw [if_neg (fun hh => h ⟨hh.1, hh.2.1, by omega⟩)]
    exact ih sd c i (fun hh => h ⟨hh.1, hh.2.1, by omega⟩)

/-! Output-value characterisation for stateless (pure) compute units. -/

lemma frames_1_1_pure_out (f : sample → sample) (st : store) (m : Nat) :
    ∀ i, i < m →
      (perform_1_1_frames (pureCalc1 f) st m ()).1 side.out 0 i = f (st side.inp 0 i) := by
  induction m with
  | zero => intro i h; omega
  | succ m ih =>
    intro i h
    rw [frames_1_1_succ, perform_1_1_step_fst]
    by_cases hi2 : i = m
    · subst hi2
      unfold storeWrite
      rw [if_pos ⟨rfl, rfl, rfl⟩]
      simp only [pureCalc1]
      rw [frames_1_1_preserve _ _ _ _ side.inp 0 i (fun hh => side.noConfusion hh.1)]
    · rw [storeWrite_other _ _ _ _ _ _ _ (fun hh => hi2 hh.2.2)]
      exact ih i (by omega)

lemma frames_scalar_pure_out (f : List sample → sample) (K : Nat) (st : store) (m : Nat) :
    ∀ i, i < m →
      (perform_generic_scalar_frames K (pureCalcScalar f) st m ()).1 side.out 0 i
        = f (argsAt K st i) := by
  induction m with
  | zero => intro i h; omega
  | succ m ih =>
    intro i h
    rw [frames_scalar_succ, perform_generic_scalar_step_fst]
    by_cases hi2 : i = m
    · unfold storeWrite
      rw [if_pos ⟨rfl, rfl, hi2⟩]
      simp only [pureCalcScalar]
      rw [expand_gather, hi2]
      rw [argsAt_congr K _ st m (fun c _ =>
        frames_scalar_preserve K _ st m () side.inp c m (fun hh => side.noConfusion hh.1))]
    · rw [storeWrite_other _ _ _ _ _ _ _ (fun hh => hi2 hh.2.2)]
      exact ih i (by omega)

lemma frames_seq_pure_out (f : List sample → (Nat → sample)) (K M : Nat) (st : store) (m : Nat) :
    ∀ c i, c < M → i < m →
      (perform_generic_seq_frames K M (pureCalcSeq f) st m ()).1 side.out c i
        = f (argsAt K st i) c := by
  induction m with
  | zero => intro c i _ h; omega
  | succ m ih =>
    intro c i hc h
    rw [frames_seq_succ, perform_generic_seq_step_fst, copy_seq_store]
    by_cases hi2 : i = m
    · rw [if_pos ⟨rfl, hc, hi2⟩]
      simp only [pureCalcSeq]
      rw [expand_gather]
      rw [hi2]
      rw [argsAt_congr K _ st m (fun ch _ =>
        frames_seq_preserve K M _ st m () side.inp ch m (fun hh => side.noConfusion hh.1))]
    · rw [if_neg (fun hh => hi2 hh.2.2)]
      exact ih c i hc (by omega)

/-! Trace characterisation: the exact sequence of buffer reads, compute
invocations and buffer writes performed by each path, for arbitrary
(possibly stateful) compute units. -/

lemma frames_1_1_trace {σ : Type} (calculate : σ → sample → sample × σ)
    (st : store) (m : Nat) (s0 : σ) :
    (perform_1_1_frames calculate st m s0).2.2
      = (List.range m).flatMap fun i =>
          [Event.readIn 0 i, Event.call i [st side.inp 0 i], Event.writeOut 0 i] := by
  induction m with
  | zero => rfl
  | succ m ih =>
    rw [frames_1_1_succ, perform_1_1_step_trace,
      frames_1_1_preserve _ _ _ _ side.inp 0 m (fun hh => side.noConfusion hh.1),
      ih, List.range_succ]
    simp

lemma frames_scalar_trace {σ : Type} (K : Nat)
    (calculate : σ → List sample → sample × σ) (st : store) (m : Nat) (s0 : σ) :
    (perform_generic_scalar_frames K calculate st m s0).2.2
      = (List.range m).flatMap fun i =>
          ((List.range K).map fun c => Event.readIn c i)
            ++ [Event.call i (argsAt K st i)] ++ [Event.writeOut 0 i] := by
  induction m with
  | zero => rfl
  | succ m ih =>
    rw [frames_scalar_succ, perform_generic_scalar_step_trace, gather_trace, expand_gather,
      argsAt_congr K _ st m (fun ch _ =>
        frames_scalar_preserve K _ st m s0 side.inp ch m (fun hh => side.noConfusion hh.1)),
      ih, List.range_succ]
    simp

lemma frames_seq_trace {σ : Type} (K M : Nat)
    (calculate : σ → List sample → (Nat → sample) × σ) (st : store) (m : Nat) (s0 : σ) :
    (perform_generic_seq_frames K M calculate st m s0).2.2
      = (List.range m).flatMap fun i =>
          ((List.range K).map fun c => Event.readIn c i)
            ++ [Event.call i (argsAt K st i)]
            ++ ((List.range M).map fun c => Event.writeOut c i) := by
  induction m with
  | zero => rfl
  | succ m ih =>
    rw [frames_seq_succ, perform_generic_seq_step_trace, gather_trace, expand_gather,
      copy_seq_trace,
      argsAt_congr K _ st m (fun ch _ =>
        frames_seq_preserve K M _ st m s0 side.inp ch m (fun hh => side.noConfusion hh.1)),
      ih, List.range_succ]
    simp

/-! Zero and negative frame counts: the frame loop runs no iterations. -/

lemma perform_1_1_nonpos {σ : Type} (calculate : σ → sample → sample × σ)
    (st : store) (n : Int) (s0 : σ) (h : n ≤ 0) :
    perform_1_1 calculate st n s0 = (st, s0, []) := by
  unfold perform_1_1
  rw [Int.toNat_eq_zero.mpr h]
  rfl

lemma perform_generic_scalar_nonpos {σ : Type} (K : Nat)
    (calculate : σ → List sample → sample × σ) (st : store) (n : Int) (s0 : σ) (h : n ≤ 0) :
    perform_generic_scalar K calculate st n s0 = (st, s0, []) := by
  unfold perform_generic_scalar
  rw [Int.toNat_eq_zero.mpr h]
  rfl

lemma perform_generic_seq_nonpos {σ : Type} (K M : Nat)
    (calculate : σ → List sample → (Nat → sample) × σ) (st : store) (n : Int) (s0 : σ)
    (h : n ≤ 0) :
    perform_generic_seq K M calculate st n s0 = (st, s0, []) := by
  unfold perform_generic_seq
  rw [Int.toNat_eq_zero.mpr h]
  rfl

/-! The specialised 1×1 path step by step coincides with the generic
per-frame algorithm instantiated at one input channel and a scalar result:
the length-1 bundle gathers `in_chans[0][i]`, expansion passes it as the one
positional argument, and the scalar scatter writes `out_chans[0][i]`. -/

lemma step_1_1_eq_generic_scalar {σ : Type} (calculate : σ → sample → sample × σ) :
    perform_1_1_step calculate
      = perform_generic_scalar_step 1 (fun s args => calculate s (args.headD 0)) := by
  funext acc i
  simp [perform_1_1_step, perform_generic_scalar_step, gather, gather_step, expand, bundle_set,
    perform_copy_output_scalar, show List.range 1 = [0] from rfl]

lemma perform_1_1_eq_generic_scalar {σ : Type} (calculate : σ → sample → sample × σ)
    (st : store) (n : Int) (s0 : σ) :
    perform_1_1 calculate st n s0
      = perform_generic_scalar 1 (fun s args => calculate s (args.headD 0)) st n s0 := by
  unfold perform_1_1 perform_1_1_frames perform_generic_scalar perform_generic_scalar_frames
  rw [step_1_1_eq_generic_scalar]

lemma trace_1_1_chan0 {σ : Type} (calculate : σ → sample → sample × σ)
    (st : store) (m : Nat) (s0 : σ) :
    ∀ e ∈ (perform_1_1_frames calculate st m s0).2.2, eventChan0 e := by
  intro e he
  rw [frames_1_1_trace] at he
  simp only [List.mem_flatMap, List.mem_cons, List.not_mem_nil, or_false] at he
  obtain ⟨i, -, hi⟩ := he
  rcases hi with rfl | rfl | rfl <;> simp [eventChan0]

/-! The claims. -/

/-- Claim C1: for every compute unit whose descriptor is exactly (1,1) with a
deterministic compute function `f` and every frame count, `perform` (the
specialised 1×1 path) writes `output[0][i] = f(input[0][i])` for every frame
index `i` in `[0, frameCount)`, with exact value equality. -/
theorem spec_c1 (f : sample → sample) (st : store) (n : Int) (i : Nat) (h : i < n.toNat) :
    (perform_1_1 (pureCalc1 f) st n ()).1 side.out 0 i = f (st side.inp 0 i) := by
  unfold perform_1_1
  exact frames_1_1_pure_out f st n.toNat i h

theorem spec_c1_witness :
    (1 : Nat) < (2 : Int).toNat
    ∧ (perform_1_1 (pureCalc1 fun x => x * 2) demoStore 2 ()).1 side.out 0 1 = 4 :=
  ⟨by decide, (spec_c1 (fun x => x * 2) demoStore 2 1 (by decide)).trans (by decide)⟩

/-- Claim C2: for every compute unit with descriptor (K,1), K > 1, and
deterministic compute function `f`, the generic `perform` writes
`output[0][i] = f(input[0][i], …, input[K-1][i])` for every frame `i`, with
the K arguments passed in ascending channel order (`argsAt` is the list of
the channel samples at frame `i`, in channel order; the witness uses the
order-sensitive `f(a, b) = a - 2*b`). -/
theorem spec_c2 (f : List sample → sample) (K : Nat) (_hK : 1 < K) (st : store)
    (n : Int) (i : Nat) (h : i < n.toNat) :
    (perform_generic_scalar K (pureCalcScalar f) st n ()).1 side.out 0 i
      = f (argsAt K st i) := by
  unfold perform_generic_scalar
  exact frames_scalar_pure_out f K st n.toNat i h

theorem spec_c2_witness :
    ((1 : Nat) < 2 ∧ (2 : Nat) < (3 : Int).toNat)
    ∧ (perform_generic_scalar 2
        (pureCalcScalar fun args => args.getD 0 0 - 2 * args.getD 1 0)
        demoStore 3 ()).1 side.out 0 2 = -57 :=
  ⟨⟨by decide, by decide⟩,
    (spec_c2 (fun args => args.getD 0 0 - 2 * args.getD 1 0) 2 (by decide)
      demoStore 3 2 (by decide)).trans (by decide)⟩

/-- Claim C3: for every compute unit with descriptor (K,M), K,M > 1, and
deterministic compute function `f` returning an M-slot sequence, the generic
`perform` writes `output[c][i] = f(input[0][i], …, input[K-1][i])[c]` for
every frame `i` in `[0, frameCount)` and every output channel `c` in
`[0, M)`: the scatter preserves the channel-to-slot mapping. -/
theorem spec_c3 (f : List sample → (Nat → sample)) (K M : Nat) (_hK : 1 < K) (_hM : 1 < M)
    (st : store) (n : Int) (c i : Nat) (hc : c < M) (hi : i < n.toNat) :
    (perform_generic_seq K M (pureCalcSeq f) st n ()).1 side.out c i
      = f (argsAt K st i) c := by
  unfold perform_generic_seq
  exact frames_seq_pure_out f K M st n.toNat c i hc hi

theorem spec_c3_witness :
    ((1 : Nat) < 2 ∧ (1 : Nat) < 2 ∧ (1 : Nat) < 2 ∧ (0 : Nat) < (2 : Int).toNat)
    ∧ (perform_generic_seq 2 2
        (pureCalcSeq fun args c => args.getD c 0 + 1000 * (c : sample))
        demoStore 2 ()).1 side.out 1 0 = 1010 :=
  ⟨⟨by decide, by decide, by decide, by decide⟩,
    (spec_c3 (fun args c => args.getD c 0 + 1000 * (c : sample)) 2 2 (by decide) (by decide)
      demoStore 2 1 0 (by decide) (by decide)).trans (by decide)⟩

/-- Claim C4: for every compute unit with descriptor (1,1) — stateful or not —
the specialised 1×1 `perform` path and the generic per-frame algorithm
instantiated at one input channel (build a length-1 bundle, expand it into
the single positional argument, scatter the scalar result) produce identical
contents of `output[0]` for every input block, initial state and frame
count: the specialisation eliminates only overhead and changes no observable
result. -/
theorem spec_c4 {σ : Type} (calculate : σ → sample → sample × σ) (st : store)
    (n : Int) (s0 : σ) (i : Nat) :
    (perform_1_1 calculate st n s0).1 side.out 0 i
      = (perform_generic_scalar 1 (fun s args => calculate s (args.headD 0)) st n s0).1
          side.out 0 i := by
  rw [perform_1_1_eq_generic_scalar]

/-- Claim C5: for every compute unit (any descriptor, stateful or not),
calling `perform` with frame count 0 reads no input buffer position, writes
no output buffer position, and leaves every output buffer exactly
unmodified: each path returns the store untouched, the unit state untouched,
and an empty event trace. -/
theorem spec_c5 {σ1 σ2 σ3 : Type} (calc1 : σ1 → sample → sample × σ1)
    (calcS : σ2 → List sample → sample × σ2)
    (calcQ : σ3 → List sample → (Nat → sample) × σ3)
    (K M : Nat) (st : store) (s1 : σ1) (s2 : σ2) (s3 : σ3) :
    perform_1_1 calc1 st 0 s1 = (st, s1, [])
    ∧ perform_generic_scalar K calcS st 0 s2 = (st, s2, [])
    ∧ perform_generic_seq K M calcQ st 0 s3 = (st, s3, []) :=
  ⟨rfl, rfl, rfl⟩

/-- Claim C6: within one `perform` call — for every compute unit, including
stateful ones — the compute function is invoked exactly once per frame,
frames are processed in strictly ascending frame-index order, and within
each frame input channels are gathered and output channels scattered in
ascending channel-index order.  The event trace of each path equals the
canonical trace, which lists, for `i = 0, 1, …, frameCount-1` in order: the
reads of channels `0, …, K-1` at frame `i`, one single compute invocation
whose arguments are the frame-`i` input samples in channel order, and the
writes of the output channels in ascending order.  The canonical trace
depends only on the input block, not on the unit state: the dispatch layer
itself carries no state from one frame to the next. -/
theorem spec_c6 {σ1 σ2 σ3 : Type} (calc1 : σ1 → sample → sample × σ1)
    (calcS : σ2 → List sample → sample × σ2)
    (calcQ : σ3 → List sample → (Nat → sample) × σ3)
    (K M : Nat) (st : store) (n : Int) (s1 : σ1) (s2 : σ2) (s3 : σ3) :
    (perform_1_1 calc1 st n s1).2.2
      = ((List.range n.toNat).flatMap fun i =>
          [Event.readIn 0 i, Event.call i [st side.inp 0 i], Event.writeOut 0 i])
    ∧ (perform_generic_scalar K calcS st n s2).2.2
      = ((List.range n.toNat).flatMap fun i =>
          ((List.range K).map fun c => Event.readIn c i)
            ++ [Event.call i (argsAt K st i)] ++ [Event.writeOut 0 i])
    ∧ (perform_generic_seq K M calcQ st n s3).2.2
      = ((List.range n.toNat).flatMap fun i =>
          ((List.range K).map fun c => Event.readIn c i)
            ++ [Event.call i (argsAt K st i)]
            ++ ((List.range M).map fun c => Event.writeOut c i)) :=
  ⟨frames_1_1_trace calc1 st n.toNat s1,
    frames_scalar_trace K calcS st n.toNat s2,
    frames_seq_trace K M calcQ st n.toNat s3⟩

/-- Claim C7: for every compute unit with descriptor (1,1) and every block,
`perform` mutates only `out_chans[0]`, in place, at frame indices
`[0, frameCount)`: every store cell other than those is returned exactly as
supplied (in particular no input cell is ever written and no other output
channel is touched), and every event of the call — read, compute, write —
touches only channel 0. -/
theorem spec_c7 {σ : Type} (calculate : σ → sample → sample × σ) (st : store)
    (n : Int) (s0 : σ) (sd : side) (c i : Nat)
    (h : ¬(sd = side.out ∧ c = 0 ∧ i < n.toNat)) :
    (perform_1_1 calculate st n s0).1 sd c i = st sd c i
    ∧ ∀ e ∈ (perform_1_1 calculate st n s0).2.2, eventChan0 e :=
  ⟨frames_1_1_preserve calculate st n.toNat s0 sd c i h,
    trace_1_1_chan0 calculate st n.toNat s0⟩

theorem spec_c7_witness :
    (¬(side.out = side.out ∧ (1 : Nat) = 0 ∧ (0 : Nat) < (2 : Int).toNat))
    ∧ (perform_1_1 (pureCalc1 fun x => x + 1) demoStore 2 ()).1 side.out 1 0
        = demoStore side.out 1 0
    ∧ ∀ e ∈ (perform_1_1 (pureCalc1 fun x => x + 1) demoStore 2 ()).2.2, eventChan0 e :=
  ⟨by decide,
    (spec_c7 (pureCalc1 fun x => x + 1) demoStore 2 () side.out 1 0 (by decide)).1,
    (spec_c7 (pureCalc1 fun x => x + 1) demoStore 2 () side.out 1 0 (by decide)).2⟩

/-- Claim C8 fails as stated: `sample_operator<input_count, output_count>` is
instantiable at any C++ `int`, and for a negative declared count the
`int → size_t` conversion in `static constexpr size_t m_inputcount = input_count;`
wraps modulo `2^64`, so `inputcount()` does not return "exactly
`input_count`": at `input_count = -1` it returns `2^64 - 1`. -/
theorem spec_c8_counterexample :
    ((sample_operator_inputcount (-1) 1 : Int) ≠ -1)
    ∧ sample_operator_inputcount (-1) 1 = 2 ^ 64 - 1 := by
  constructor
  · decide
  · decide

/-- Claim C8, amended: for every instantiation whose declared counts are
non-negative (and within the 64-bit range — automatic for a C++ `int`),
`inputcount()` and `outputcount()` are compile-time constants returning
exactly `input_count` and `output_count`, and the returned values are
non-negative.  They are fixed for the lifetime of the compute-unit type:
the model is a pure function of the two template arguments alone. -/
theorem spec_c8 (ic oc : Int) (h1 : 0 ≤ ic) (h2 : ic < 2 ^ 64)
    (h3 : 0 ≤ oc) (h4 : oc < 2 ^ 64) :
    (sample_operator_inputcount ic oc : Int) = ic
    ∧ (sample_operator_outputcount ic oc : Int) = oc
    ∧ (0 : Int) ≤ (sample_operator_inputcount ic oc : Int)
    ∧ (0 : Int) ≤ (sample_operator_outputcount ic oc : Int) := by
  unfold sample_operator_inputcount sample_operator_outputcount size_t_of_int
  refine ⟨?_, ?_, Int.natCast_nonneg _, Int.natCast_nonneg _⟩
  · rw [Int.emod_eq_of_lt h1 h2]
    exact Int.toNat_of_nonneg h1
  · rw [Int.emod_eq_of_lt h3 h4]
    exact Int.toNat_of_nonneg h3

theorem spec_c8_witness :
    ((0 : Int) ≤ 3 ∧ (3 : Int) < 2 ^ 64 ∧ (0 : Int) ≤ 2 ∧ (2 : Int) < 2 ^ 64)
    ∧ (sample_operator_inputcount 3 2 : Int) = 3
    ∧ (sample_operator_outputcount 3 2 : Int) = 2
    ∧ (0 : Int) ≤ (sample_operator_inputcount 3 2 : Int)
    ∧ (0 : Int) ≤ (sample_operator_outputcount 3 2 : Int) :=
  ⟨⟨by decide, by decide, by decide, by decide⟩,
    spec_c8 3 2 (by decide) (by decide) (by decide) (by decide)⟩

/-- Claim C9 (implicit): for every compute unit and every negative frame
count (`sampleframes < 0`, the parameter being a signed `long`), both
`perform` specialisations behave exactly as for frame count 0: the loop
condition `i < sampleframes` is false at `i = 0`, so the body never runs, no
input is read, no output cell is written, and the trace is empty. -/
theorem spec_c9 {σ1 σ2 σ3 : Type} (calc1 : σ1 → sample → sample × σ1)
    (calcS : σ2 → List sample → sample × σ2)
    (calcQ : σ3 → List sample → (Nat → sample) × σ3)
    (K M : Nat) (st : store) (n : Int) (hn : n < 0) (s1 : σ1) (s2 : σ2) (s3 : σ3) :
    perform_1_1 calc1 st n s1 = (st, s1, [])
    ∧ perform_generic_scalar K calcS st n s2 = (st, s2, [])
    ∧ perform_generic_seq K M calcQ st n s3 = (st, s3, []) :=
  ⟨perform_1_1_nonpos calc1 st n s1 (le_of_lt hn),
    perform_generic_scalar_nonpos K calcS st n s2 (le_of_lt hn),
    perform_generic_seq_nonpos K M calcQ st n s3 (le_of_lt hn)⟩

theorem spec_c9_witness :
    ((-3 : Int) < 0)
    ∧ (perform_1_1 (pureCalc1 fun x => x * 2) demoStore (-3) () = (demoStore, (), [])
      ∧ perform_generic_scalar 2 (pureCalcScalar fun args => args.getD 0 0) demoStore (-3) ()
          = (demoStore, (), [])
      ∧ perform_generic_seq 2 2 (pureCalcSeq fun args _ => args.getD 0 0) demoStore (-3) ()
          = (demoStore, (), [])) :=
  ⟨by decide,
    spec_c9 (pureCalc1 fun x => x * 2) (pureCalcScalar fun args => args.getD 0 0)
      (pureCalcSeq fun args _ => args.getD 0 0) 2 2 demoStore (-3) (by decide) () () ()⟩

/-- Claim C10 (implicit): the generic (non-1×1) `perform` path never mutates
any input buffer — each input sample is copied by value into the per-frame
bundle before the compute call — so after `perform` returns (in either the
scalar-returning or the sequence-returning variant), every input channel
cell holds exactly what the caller supplied.  The two-sided store states the
claim's non-aliasing assumption. -/
theorem spec_c10 {σ2 σ3 : Type} (K M : Nat)
    (calcS : σ2 → List sample → sample × σ2)
    (calcQ : σ3 → List sample → (Nat → sample) × σ3)
    (st : store) (n : Int) (s2 : σ2) (s3 : σ3) (c i : Nat) :
    (perform_generic_scalar K calcS st n s2).1 side.inp c i = st side.inp c i
    ∧ (perform_generic_seq K M calcQ st n s3).1 side.inp c i = st side.inp c i :=
  ⟨frames_scalar_preserve K calcS st n.toNat s2 side.inp c i (fun hh => side.noConfusion hh.1),
    frames_seq_preserve K M calcQ st n.toNat s3 side.inp c i (fun hh => side.noConfusion hh.1)⟩

end C74Min
